import Mathlib

/-!
Verification of the driver scoring and schedule-optimization engine of a
ride-hailing fleet-of-agents demo.  The priority scorer lives in
agents/driver_prioritization_agent.py, the behavioral twin and scheduler in
backend/agents/digital_twin_agent.py.  Python floats are embedded as exact
rationals (every float is a rational); machine reals produced by log and
sqrt are embedded as real numbers; pandas NaN propagation is embedded with
Option, where none stands for NaN; a pure-Python division by zero raises
ZeroDivisionError and is embedded with Option, where none stands for the
raised exception; a numpy float64 division by zero does NOT raise (the
module suppresses warnings and leaves numpy's default error state), so its
result is embedded with an explicit value type carrying inf and NaN.
-/

namespace DriverPrioritization

/-- Configuration constant: self.config platform_avg_rating = 4.7
(driver_prioritization_agent.py line 72). -/
def platform_avg_rating : ℚ := 4.7

/-- Configuration constant: self.config equivalent_prior_trips = 20
(driver_prioritization_agent.py line 73). -/
def equivalent_prior_trips : ℚ := 20

/-- Configuration constant: self.config n95_trips = 500
(driver_prioritization_agent.py line 74). -/
def n95_trips : ℕ := 500

/-- Embeds calculate_experience_aware_rating (lines 148-172):
ear = (m * a + n * r) / (m + n). -/
def calculate_experience_aware_rating (driver_rating : ℚ) (completed_trips : ℕ) : ℚ :=
  (equivalent_prior_trips * platform_avg_rating + completed_trips * driver_rating) /
    (equivalent_prior_trips + completed_trips)

/-- Embeds calculate_reliability_score (lines 193-207):
A = acceptance_rate, C = 1 - cancellation_rate, returned verbatim with
no clamping. -/
def calculate_reliability_score (acceptance_rate cancellation_rate : ℚ) : ℚ × ℚ :=
  (acceptance_rate, 1 - cancellation_rate)

/-- The six factor weights read from self.weights (lines 80-87). -/
structure Weights where
  rating : ℚ
  acceptance : ℚ
  cancellation : ℚ
  activeness : ℚ
  safety : ℚ
  experience_boost : ℚ
deriving DecidableEq

/-- The hardcoded default weight map (lines 80-87). -/
def defaultWeights : Weights :=
  { rating := 0.35, acceptance := 0.15, cancellation := 0.15,
    activeness := 0.15, safety := 0.10, experience_boost := 0.10 }

/-- Sum of the six weights of a weight map. -/
def weightsSum (w : Weights) : ℚ :=
  w.rating + w.acceptance + w.cancellation + w.activeness + w.safety + w.experience_boost

/-- Embeds the weight-map initialisation performed by
DriverPrioritizationAgent.__init__ (lines 57-90): the default map is
assigned unconditionally; the constructor contains no validation of the
weights and no raise statement for configuration errors. -/
def initWeights : Weights := defaultWeights

/-- Embeds calculate_overall_priority_score (lines 209-237) as the function
of the weight map stored on the agent (self.weights) and the six factors:
the weighted sum of the min-max normalised EAR and the other factors.
No check of the weight map is performed. -/
def overallPriorityScoreWithWeights
    (w : Weights) (ear experience_boost acceptance_rate cancellation_reliability
     activeness_score safety_score : ℚ) : ℚ :=
  let ear_normalized := (ear - 1) / 4
  w.rating * ear_normalized +
  w.acceptance * acceptance_rate +
  w.cancellation * cancellation_reliability +
  w.activeness * activeness_score +
  w.safety * safety_score +
  w.experience_boost * experience_boost

/-- A weight map whose six entries sum to 1.2 rather than 1. -/
def badWeights : Weights :=
  { rating := 0.42, acceptance := 0.18, cancellation := 0.18,
    activeness := 0.18, safety := 0.12, experience_boost := 0.12 }

/-- Shared helper: the EAR is at least the smaller of the prior and the raw
rating (convex-combination lower bound). -/
lemma ear_ge_min (r : ℚ) (n : ℕ) :
    min platform_avg_rating r ≤ calculate_experience_aware_rating r n := by
  unfold calculate_experience_aware_rating equivalent_prior_trips platform_avg_rating
  have hn : (0 : ℚ) ≤ (n : ℚ) := by exact_mod_cast Nat.zero_le n
  have hd : (0 : ℚ) < 20 + (n : ℚ) := by linarith
  rw [le_div_iff₀ hd]
  have h1 : min (4.7 : ℚ) r ≤ 4.7 := min_le_left _ _
  have h2 : min (4.7 : ℚ) r ≤ r := min_le_right _ _
  nlinarith [mul_le_mul_of_nonneg_left h2 hn]

/-- Shared helper: the EAR is at most the larger of the prior and the raw
rating (convex-combination upper bound). -/
lemma ear_le_max (r : ℚ) (n : ℕ) :
    calculate_experience_aware_rating r n ≤ max platform_avg_rating r := by
  unfold calculate_experience_aware_rating equivalent_prior_trips platform_avg_rating
  have hn : (0 : ℚ) ≤ (n : ℚ) := by exact_mod_cast Nat.zero_le n
  have hd : (0 : ℚ) < 20 + (n : ℚ) := by linarith
  rw [div_le_iff₀ hd]
  have h1 : (4.7 : ℚ) ≤ max 4.7 r := le_max_left _ _
  have h2 : r ≤ max (4.7 : ℚ) r := le_max_right _ _
  nlinarith [mul_le_mul_of_nonneg_left h2 hn]

/-- Shared helper: with 1 ≤ r ≤ 5 the EAR stays in the 1-to-5 star band. -/
lemma ear_mem_one_five (r : ℚ) (n : ℕ) (h1 : 1 ≤ r) (h5 : r ≤ 5) :
    1 ≤ calculate_experience_aware_rating r n ∧ calculate_experience_aware_rating r n ≤ 5 := by
  constructor
  · refine le_trans ?_ (ear_ge_min r n)
    have : (1 : ℚ) ≤ platform_avg_rating := by unfold platform_avg_rating; norm_num
    exact le_min this h1
  · refine le_trans (ear_le_max r n) ?_
    have : platform_avg_rating ≤ (5 : ℚ) := by unfold platform_avg_rating; norm_num
    exact max_le this h5

/-- Shared helper: with zero completed trips the EAR equals the platform
average exactly. -/
lemma ear_zero (r : ℚ) : calculate_experience_aware_rating r 0 = platform_avg_rating := by
  unfold calculate_experience_aware_rating equivalent_prior_trips platform_avg_rating
  norm_num

/-- C1: for every raw_rating r in [1,5] and every completed-trip count n,
the Experience-Aware Rating (m * platform_avg_rating + n * r) / (m + n)
lies in [min(platform_avg_rating, r), max(platform_avg_rating, r)], and for
n = 0 it equals platform_avg_rating exactly. -/
theorem ear_bounds_and_prior (r : ℚ) (n : ℕ) (h1 : 1 ≤ r) (h5 : r ≤ 5) :
    min platform_avg_rating r ≤ calculate_experience_aware_rating r n ∧
    calculate_experience_aware_rating r n ≤ max platform_avg_rating r ∧
    calculate_experience_aware_rating r 0 = platform_avg_rating :=
  ⟨ear_ge_min r n, ear_le_max r n, ear_zero r⟩

/-- Witness for C1 at r = 3, n = 7. -/
theorem ear_bounds_and_prior_witness :
    min platform_avg_rating 3 ≤ calculate_experience_aware_rating 3 7 ∧
    calculate_experience_aware_rating 3 7 ≤ max platform_avg_rating 3 ∧
    calculate_experience_aware_rating 3 0 = platform_avg_rating :=
  ear_bounds_and_prior 3 7 (by norm_num) (by norm_num)

/-- C5 counterexample: calculate_reliability_score performs no clamping, so
at acceptance_rate = 2 and cancellation_rate = 2 both returned factors lie
outside [0,1] (the first is 2, the second is -1). -/
theorem reliability_no_clamp_counterexample :
    1 < (calculate_reliability_score 2 2).1 ∧ (calculate_reliability_score 2 2).2 < 0 := by
  constructor <;> norm_num [calculate_reliability_score]

/-- C5 amended: the reliability factors are returned verbatim as
A = acceptance_rate and C = 1 - cancellation_rate with no clamping; they lie
in [0,1] exactly when the inputs do. -/
theorem reliability_passthrough_in_range (a c : ℚ)
    (ha0 : 0 ≤ a) (ha1 : a ≤ 1) (hc0 : 0 ≤ c) (hc1 : c ≤ 1) :
    (calculate_reliability_score a c).1 = a ∧
    (calculate_reliability_score a c).2 = 1 - c ∧
    0 ≤ (calculate_reliability_score a c).1 ∧ (calculate_reliability_score a c).1 ≤ 1 ∧
    0 ≤ (calculate_reliability_score a c).2 ∧ (calculate_reliability_score a c).2 ≤ 1 := by
  refine ⟨rfl, rfl, ha0, ha1, ?_, ?_⟩ <;> simp [calculate_reliability_score] <;> linarith

/-- Witness for the amended C5 at acceptance_rate = 1/2,
cancellation_rate = 1/4. -/
theorem reliability_passthrough_in_range_witness :
    (calculate_reliability_score (1/2) (1/4)).1 = 1/2 ∧
    (calculate_reliability_score (1/2) (1/4)).2 = 1 - 1/4 ∧
    0 ≤ (calculate_reliability_score (1/2) (1/4)).1 ∧
    (calculate_reliability_score (1/2) (1/4)).1 ≤ 1 ∧
    0 ≤ (calculate_reliability_score (1/2) (1/4)).2 ∧
    (calculate_reliability_score (1/2) (1/4)).2 ≤ 1 :=
  reliability_passthrough_in_range (1/2) (1/4)
    (by norm_num) (by norm_num) (by norm_num) (by norm_num)

/-- C6 counterexample: the scorer performs no weight validation anywhere;
with a weight map summing to 1.2 (not 1.0), scoring proceeds and returns
6/5 when every factor is at its nominal maximum (EAR = 5, all others 1),
instead of an InvalidConfiguration error ever being raised. -/
theorem no_weight_validation_counterexample :
    weightsSum badWeights ≠ 1 ∧
    overallPriorityScoreWithWeights badWeights 5 1 1 1 1 1 = 6/5 := by
  constructor <;> norm_num [weightsSum, badWeights, overallPriorityScoreWithWeights]

/-- C6 amended: the constructor unconditionally installs the hardcoded
default weight map, which sums to 1.0; no validation is performed and no
InvalidConfiguration error exists, and calculate_overall_priority_score
computes its weighted sum for any weight map whatsoever (with every factor
at its maximum the score equals the weight sum, whatever that sum is). -/
theorem init_weights_unvalidated :
    weightsSum initWeights = 1 ∧
    ∀ w : Weights, overallPriorityScoreWithWeights w 5 1 1 1 1 1 = weightsSum w := by
  constructor
  · norm_num [weightsSum, initWeights, defaultWeights]
  · intro w
    unfold overallPriorityScoreWithWeights weightsSum
    ring

/-- Embeds calculate_experience_boost (lines 174-191): 0 when n ≤ 0,
otherwise min(log(1 + n) / log(1 + n95), 1).  The argument is an integer so
that negative trip counts are representable. -/
noncomputable def calculate_experience_boost (completed_trips : ℤ) : ℝ :=
  if completed_trips ≤ 0 then 0
  else min (Real.log (1 + (completed_trips : ℝ)) / Real.log (1 + (n95_trips : ℝ))) 1

/-- Shared helper: the denominator log(1 + 500) is positive. -/
lemma log_n95_pos : 0 < Real.log (1 + (n95_trips : ℝ)) := by
  apply Real.log_pos
  unfold n95_trips
  norm_num

/-- Shared helper: the experience boost is never negative. -/
lemma experience_boost_nonneg (n : ℤ) : 0 ≤ calculate_experience_boost n := by
  unfold calculate_experience_boost
  split_ifs with h
  · exact le_rfl
  · push_neg at h
    refine le_min (div_nonneg (Real.log_nonneg ?_) log_n95_pos.le) zero_le_one
    have : (1 : ℝ) ≤ (n : ℝ) := by exact_mod_cast h
    linarith

/-- Shared helper: the experience boost is capped at 1. -/
lemma experience_boost_le_one (n : ℤ) : calculate_experience_boost n ≤ 1 := by
  unfold calculate_experience_boost
  split_ifs with h
  · exact zero_le_one
  · exact min_le_right _ _

/-- Shared helper: the experience boost is monotone in the trip count. -/
lemma experience_boost_mono {m n : ℤ} (h : m ≤ n) :
    calculate_experience_boost m ≤ calculate_experience_boost n := by
  unfold calculate_experience_boost
  split_ifs with hm hn hn
  · exact le_rfl
  · push_neg at hn
    refine le_min (div_nonneg (Real.log_nonneg ?_) log_n95_pos.le) zero_le_one
    have : (1 : ℝ) ≤ (n : ℝ) := by exact_mod_cast hn
    linarith
  · exact absurd (le_trans h hn) hm
  · push_neg at hm hn
    refine min_le_min ?_ le_rfl
    rw [div_le_div_iff_of_pos_right log_n95_pos]
    have h1 : (0 : ℝ) < 1 + (m : ℝ) := by
      have : (1 : ℝ) ≤ (m : ℝ) := by exact_mod_cast hm
      linarith
    have h2 : (0 : ℝ) < 1 + (n : ℝ) := by
      have : (1 : ℝ) ≤ (n : ℝ) := by exact_mod_cast hn
      linarith
    rw [Real.log_le_log_iff h1 h2]
    have : (m : ℝ) ≤ (n : ℝ) := by exact_mod_cast h
    linarith

/-- C4: the experience boost E is non-decreasing, E(0) = 0, E(n) ≤ 1 for
all n, and any negative trip count is clamped to 0. -/
theorem experience_boost_spec :
    (∀ m n : ℤ, m ≤ n → calculate_experience_boost m ≤ calculate_experience_boost n) ∧
    calculate_experience_boost 0 = 0 ∧
    (∀ n : ℤ, calculate_experience_boost n ≤ 1) ∧
    (∀ n : ℤ, n < 0 → calculate_experience_boost n = 0) :=
  ⟨fun _ _ h => experience_boost_mono h,
   by simp [calculate_experience_boost],
   experience_boost_le_one,
   fun n hn => by simp [calculate_experience_boost, le_of_lt hn]⟩

/-- Witness for C4 at m = 2, n = 5 and n = -3. -/
theorem experience_boost_spec_witness :
    calculate_experience_boost 2 ≤ calculate_experience_boost 5 ∧
    calculate_experience_boost 0 = 0 ∧
    calculate_experience_boost 7 ≤ 1 ∧
    calculate_experience_boost (-3) = 0 :=
  ⟨experience_boost_spec.1 2 5 (by decide),
   experience_boost_spec.2.1,
   experience_boost_spec.2.2.1 7,
   experience_boost_spec.2.2.2 (-3) (by decide)⟩

/-- Embeds calculate_overall_priority_score (lines 209-237) at the default
weights installed by the constructor, over the reals (the experience boost
is a real number): 0.35 * (ear - 1) / 4 + 0.15 * A + 0.15 * C + 0.15 * L +
0.10 * S + 0.10 * E. -/
noncomputable def calculate_overall_priority_score
    (ear experience_boost acceptance_rate cancellation_reliability
     activeness_score safety_score : ℝ) : ℝ :=
  let ear_normalized := (ear - 1) / 4
  0.35 * ear_normalized +
  0.15 * acceptance_rate +
  0.15 * cancellation_reliability +
  0.15 * activeness_score +
  0.10 * safety_score +
  0.10 * experience_boost

/-- Embeds the per-driver scoring pipeline of prioritize_all_drivers
(lines 243-267): EAR from rating and trips, experience boost from trips,
reliability factors from the two rates, then the weighted overall score. -/
noncomputable def driverOverallScore
    (rating : ℚ) (completed_trips : ℕ)
    (acceptance_rate cancellation_rate activeness_score safety_score : ℚ) : ℝ :=
  let ear := calculate_experience_aware_rating rating completed_trips
  let exp_boost := calculate_experience_boost completed_trips
  let ac := calculate_reliability_score acceptance_rate cancellation_rate
  calculate_overall_priority_score (ear : ℝ) exp_boost
    (ac.1 : ℝ) (ac.2 : ℝ) (activeness_score : ℝ) (safety_score : ℝ)

/-- C2: for every valid input combination (rating in [1,5], any trip count,
both rates and both scores in [0,1]) the overall priority score of the
scoring pipeline lies in [0,1]. -/
theorem overall_priority_score_unit_interval
    (rating acceptance_rate cancellation_rate activeness_score safety_score : ℚ)
    (completed_trips : ℕ)
    (hr1 : 1 ≤ rating) (hr5 : rating ≤ 5)
    (ha0 : 0 ≤ acceptance_rate) (ha1 : acceptance_rate ≤ 1)
    (hc0 : 0 ≤ cancellation_rate) (hc1 : cancellation_rate ≤ 1)
    (hl0 : 0 ≤ activeness_score) (hl1 : activeness_score ≤ 1)
    (hs0 : 0 ≤ safety_score) (hs1 : safety_score ≤ 1) :
    0 ≤ driverOverallScore rating completed_trips
          acceptance_rate cancellation_rate activeness_score safety_score ∧
    driverOverallScore rating completed_trips
          acceptance_rate cancellation_rate activeness_score safety_score ≤ 1 := by
  obtain ⟨he1, he5⟩ := ear_mem_one_five rating completed_trips hr1 hr5
  have hE0 := experience_boost_nonneg (completed_trips : ℤ)
  have hE1 := experience_boost_le_one (completed_trips : ℤ)
  unfold driverOverallScore calculate_overall_priority_score calculate_reliability_score
  have he1' : (1 : ℝ) ≤ (calculate_experience_aware_rating rating completed_trips : ℝ) := by
    exact_mod_cast he1
  have he5' : (calculate_experience_aware_rating rating completed_trips : ℝ) ≤ 5 := by
    exact_mod_cast he5
  have ha0' : (0 : ℝ) ≤ (acceptance_rate : ℝ) := by exact_mod_cast ha0
  have ha1' : (acceptance_rate : ℝ) ≤ 1 := by exact_mod_cast ha1
  have hc0' : (0 : ℝ) ≤ (cancellation_rate : ℝ) := by exact_mod_cast hc0
  have hc1' : (cancellation_rate : ℝ) ≤ 1 := by exact_mod_cast hc1
  have hl0' : (0 : ℝ) ≤ (activeness_score : ℝ) := by exact_mod_cast hl0
  have hl1' : (activeness_score : ℝ) ≤ 1 := by exact_mod_cast hl1
  have hs0' : (0 : ℝ) ≤ (safety_score : ℝ) := by exact_mod_cast hs0
  have hs1' : (safety_score : ℝ) ≤ 1 := by exact_mod_cast hs1
  push_cast
  constructor <;> nlinarith

/-- Witness for C2 at the upper boundary input: rating = 5,
completed_trips = 100000, every rate and score equal to 1. -/
theorem overall_priority_score_unit_interval_witness :
    0 ≤ driverOverallScore 5 100000 1 1 1 1 ∧ driverOverallScore 5 100000 1 1 1 1 ≤ 1 :=
  overall_priority_score_unit_interval 5 1 1 1 1 100000
    (by norm_num) (by norm_num) (by norm_num) (by norm_num) (by norm_num)
    (by norm_num) (by norm_num) (by norm_num) (by norm_num) (by norm_num)

/-- The fields of the DriverPriorityScore dataclass (lines 30-48) that the
ranking step reads or writes: the driver identity, the overall priority
score computed per driver, and the rank assigned after sorting. -/
structure DriverPriorityScore where
  earner_id : ℕ
  overall_priority_score : ℚ
  rank : ℕ
deriving DecidableEq

/-- The comparison used by the descending stable sort of
prioritize_all_drivers (line 283): sort(key = overall_priority_score,
reverse = True), i.e. a comes no later than b when b's score is at most
a's. -/
def scoreGE (a b : DriverPriorityScore) : Prop :=
  b.overall_priority_score ≤ a.overall_priority_score

instance : DecidableRel scoreGE :=
  fun a b => inferInstanceAs (Decidable (b.overall_priority_score ≤ a.overall_priority_score))

instance : IsTotal DriverPriorityScore scoreGE :=
  ⟨fun a b => le_total b.overall_priority_score a.overall_priority_score⟩

instance : IsTrans DriverPriorityScore scoreGE :=
  ⟨fun _ _ _ h1 h2 => le_trans h2 h1⟩

/-- Embeds the rank-assignment loop of prioritize_all_drivers
(lines 284-285): enumerate(priority_scores, 1) writing contiguous 1-based
ranks down the sorted list. -/
def assignRanks : ℕ → List DriverPriorityScore → List DriverPriorityScore
  | _, [] => []
  | k, e :: es => { e with rank := k } :: assignRanks (k + 1) es

/-- Embeds prioritize_all_drivers (lines 239-287) from the per-driver
scores onward: a stable descending sort by overall_priority_score
(Python's list.sort is stable; insertion sort with the same comparison is
extensionally the same stable sort) followed by 1-based rank assignment. -/
def prioritize_all_drivers (l : List DriverPriorityScore) : List DriverPriorityScore :=
  assignRanks 1 (List.insertionSort scoreGE l)

/-- Shared helper: rank assignment writes the contiguous block k..k+len-1. -/
lemma assignRanks_map_rank : ∀ (k : ℕ) (l : List DriverPriorityScore),
    (assignRanks k l).map DriverPriorityScore.rank = List.range' k l.length
  | _, [] => rfl
  | k, _ :: es => by
    simp [assignRanks, List.range', assignRanks_map_rank (k + 1) es]

/-- Shared helper: rank assignment does not change the scores. -/
lemma assignRanks_map_score : ∀ (k : ℕ) (l : List DriverPriorityScore),
    (assignRanks k l).map DriverPriorityScore.overall_priority_score =
      l.map DriverPriorityScore.overall_priority_score
  | _, [] => rfl
  | k, _ :: es => by
    simp [assignRanks, assignRanks_map_score (k + 1) es]

/-- Shared helper: rank assignment preserves the identity sequence of any
score class. -/
lemma assignRanks_filter_earner (s : ℚ) : ∀ (k : ℕ) (l : List DriverPriorityScore),
    ((assignRanks k l).filter
        (fun e => e.overall_priority_score = s)).map DriverPriorityScore.earner_id =
      (l.filter (fun e => e.overall_priority_score = s)).map DriverPriorityScore.earner_id
  | _, [] => rfl
  | k, e :: es => by
    by_cases h : e.overall_priority_score = s <;>
      simp [assignRanks, List.filter_cons, h, assignRanks_filter_earner s (k + 1) es]

/-- Shared helper: every element of assignRanks k l has rank at least k and
carries the score of some element of l. -/
lemma mem_assignRanks : ∀ (k : ℕ) (l : List DriverPriorityScore) (x : DriverPriorityScore),
    x ∈ assignRanks k l → k ≤ x.rank ∧
      ∃ y ∈ l, x.overall_priority_score = y.overall_priority_score
  | k, e :: es, x, hx => by
    rcases List.mem_cons.mp hx with h | h
    · subst h
      exact ⟨le_rfl, e, List.mem_cons_self _ _, rfl⟩
    · obtain ⟨hk, y, hy, hs⟩ := mem_assignRanks (k + 1) es x h
      exact ⟨le_trans (Nat.le_succ k) hk, y, List.mem_cons_of_mem _ hy, hs⟩

/-- Shared helper: on a descending-sorted list, rank assignment produces a
list pairwise ordered by strictly increasing rank and non-increasing
score. -/
lemma assignRanks_pairwise : ∀ (k : ℕ) (l : List DriverPriorityScore),
    l.Pairwise scoreGE →
    (assignRanks k l).Pairwise
      (fun a b => a.rank < b.rank ∧ b.overall_priority_score ≤ a.overall_priority_score)
  | _, [], _ => List.Pairwise.nil
  | k, e :: es, h => by
    rw [List.pairwise_cons] at h
    refine List.Pairwise.cons ?_ (assignRanks_pairwise (k + 1) es h.2)
    intro x hx
    obtain ⟨hk, y, hy, hs⟩ := mem_assignRanks (k + 1) es x hx
    exact ⟨Nat.lt_of_lt_of_le (Nat.lt_succ_self k) hk, hs ▸ h.1 y hy⟩

/-- Shared helper: filtering a score class through an ordered insertion
puts the inserted element first within its class and otherwise leaves the
class untouched (the stability kernel of the sort). -/
lemma filter_orderedInsert (s : ℚ) (x : DriverPriorityScore) :
    ∀ l : List DriverPriorityScore,
    (List.orderedInsert scoreGE x l).filter (fun e => e.overall_priority_score = s) =
      if x.overall_priority_score = s
      then x :: l.filter (fun e => e.overall_priority_score = s)
      else l.filter (fun e => e.overall_priority_score = s)
  | [] => by
    by_cases h : x.overall_priority_score = s <;>
      simp [List.orderedInsert, List.filter, h]
  | y :: ys => by
    by_cases hr : scoreGE x y
    · by_cases hx : x.overall_priority_score = s <;>
        by_cases hy : y.overall_priority_score = s <;>
          simp [List.orderedInsert, if_pos hr, List.filter_cons, hx, hy]
    · have hxy : ¬(x.overall_priority_score = s ∧ y.overall_priority_score = s) := by
        rintro ⟨hx, hy⟩
        exact hr (le_of_eq (hy.trans hx.symm))
      by_cases hx : x.overall_priority_score = s
      · have hy : ¬y.overall_priority_score = s := fun hy => hxy ⟨hx, hy⟩
        simp [List.orderedInsert, if_neg hr, List.filter_cons, hx, hy,
          filter_orderedInsert s x ys]
      · by_cases hy : y.overall_priority_score = s <;>
          simp [List.orderedInsert, if_neg hr, List.filter_cons, hx, hy,
            filter_orderedInsert s x ys]

/-- Shared helper: the stable descending sort preserves the original order
inside every score class. -/
lemma filter_insertionSort (s : ℚ) : ∀ l : List DriverPriorityScore,
    (List.insertionSort scoreGE l).filter (fun e => e.overall_priority_score = s) =
      l.filter (fun e => e.overall_priority_score = s)
  | [] => rfl
  | e :: es => by
    by_cases h : e.overall_priority_score = s <;>
      simp [List.insertionSort, filter_orderedInsert, List.filter_cons, h,
        filter_insertionSort s es]

/-- Shared helper: two collections that are permutations of each other sort
to the same descending score sequence. -/
lemma insertionSort_map_score_perm {l l' : List DriverPriorityScore} (hperm : l'.Perm l) :
    (List.insertionSort scoreGE l').map DriverPriorityScore.overall_priority_score =
      (List.insertionSort scoreGE l).map DriverPriorityScore.overall_priority_score := by
  haveI : IsAntisymm ℚ (fun a b : ℚ => b ≤ a) := ⟨fun _ _ h1 h2 => le_antisymm h2 h1⟩
  refine List.eq_of_perm_of_sorted (r := fun a b : ℚ => b ≤ a) ?_ ?_ ?_
  · exact ((List.perm_insertionSort scoreGE l').map _).trans
      ((hperm.map _).trans ((List.perm_insertionSort scoreGE l).map _).symm)
  · exact List.Pairwise.map _ (fun _ _ h => h) (List.sorted_insertionSort scoreGE l')
  · exact List.Pairwise.map _ (fun _ _ h => h) (List.sorted_insertionSort scoreGE l)

/-- C3: prioritize_all_drivers assigns exactly the contiguous ranks 1..N;
the output is pairwise ordered by strictly increasing rank and
non-increasing score (so the order is consistent with descending
overall_priority_score); the rank-1 entry has the maximum score; ties are
broken by original input order (each score class keeps its input identity
sequence); and any reordering of the same collection reproduces the same
descending score-to-rank sequence. -/
theorem prioritize_all_drivers_ranking (l l' : List DriverPriorityScore) (hperm : l'.Perm l) :
    (prioritize_all_drivers l).map DriverPriorityScore.rank = List.range' 1 l.length ∧
    (prioritize_all_drivers l).Pairwise
      (fun a b => a.rank < b.rank ∧ b.overall_priority_score ≤ a.overall_priority_score) ∧
    (∀ e ∈ prioritize_all_drivers l, ∀ f ∈ prioritize_all_drivers l,
      f.rank = 1 → e.overall_priority_score ≤ f.overall_priority_score) ∧
    (∀ s : ℚ, ((prioritize_all_drivers l).filter
        (fun e => e.overall_priority_score = s)).map DriverPriorityScore.earner_id =
      (l.filter (fun e => e.overall_priority_score = s)).map DriverPriorityScore.earner_id) ∧
    (prioritize_all_drivers l').map DriverPriorityScore.overall_priority_score =
      (prioritize_all_drivers l).map DriverPriorityScore.overall_priority_score := by
  have hlen : (List.insertionSort scoreGE l).length = l.length :=
    (List.perm_insertionSort scoreGE l).length_eq
  have hranks : (prioritize_all_drivers l).map DriverPriorityScore.rank =
      List.range' 1 l.length := by
    rw [prioritize_all_drivers, assignRanks_map_rank, hlen]
  have hpair : (prioritize_all_drivers l).Pairwise
      (fun a b => a.rank < b.rank ∧ b.overall_priority_score ≤ a.overall_priority_score) :=
    assignRanks_pairwise 1 _ (List.sorted_insertionSort scoreGE l)
  refine ⟨hranks, hpair, ?_, ?_, ?_⟩
  · intro e he f hf hf1
    by_cases hef : e = f
    · exact le_of_eq (congrArg _ hef)
    · have hsym : (prioritize_all_drivers l).Pairwise (fun a b =>
          (a.rank < b.rank ∧ b.overall_priority_score ≤ a.overall_priority_score) ∨
          (b.rank < a.rank ∧ a.overall_priority_score ≤ b.overall_priority_score)) :=
        hpair.imp Or.inl
      have he1 : 1 ≤ e.rank := by
        have : e.rank ∈ List.range' 1 l.length := by
          rw [← hranks]; exact List.mem_map_of_mem _ he
        exact (List.mem_range'_1.mp this).1
      rcases hsym.forall (fun a b h => h.symm) he hf hef with ⟨hlt, _⟩ | ⟨_, hle⟩
      · omega
      · exact hle
  · intro s
    rw [prioritize_all_drivers, assignRanks_filter_earner, filter_insertionSort]
  · rw [prioritize_all_drivers, prioritize_all_drivers,
      assignRanks_map_score, assignRanks_map_score]
    exact insertionSort_map_score_perm hperm

/-- Witness for C3 on a 3-driver collection with a tied score class and a
reordered copy of it. -/
theorem prioritize_all_drivers_ranking_witness :
    (prioritize_all_drivers [⟨1, 1/2, 0⟩, ⟨2, 3/4, 0⟩, ⟨3, 1/2, 0⟩]).map
        DriverPriorityScore.rank =
      List.range' 1 ([⟨1, 1/2, 0⟩, ⟨2, 3/4, 0⟩, ⟨3, 1/2, 0⟩] :
        List DriverPriorityScore).length ∧
    (prioritize_all_drivers [⟨1, 1/2, 0⟩, ⟨2, 3/4, 0⟩, ⟨3, 1/2, 0⟩]).Pairwise
      (fun a b => a.rank < b.rank ∧ b.overall_priority_score ≤ a.overall_priority_score) ∧
    (∀ e ∈ prioritize_all_drivers [⟨1, 1/2, 0⟩, ⟨2, 3/4, 0⟩, ⟨3, 1/2, 0⟩],
      ∀ f ∈ prioritize_all_drivers [⟨1, 1/2, 0⟩, ⟨2, 3/4, 0⟩, ⟨3, 1/2, 0⟩],
      f.rank = 1 → e.overall_priority_score ≤ f.overall_priority_score) ∧
    (∀ s : ℚ, ((prioritize_all_drivers [⟨1, 1/2, 0⟩, ⟨2, 3/4, 0⟩, ⟨3, 1/2, 0⟩]).filter
        (fun e => e.overall_priority_score = s)).map DriverPriorityScore.earner_id =
      (([⟨1, 1/2, 0⟩, ⟨2, 3/4, 0⟩, ⟨3, 1/2, 0⟩] : List DriverPriorityScore).filter
        (fun e => e.overall_priority_score = s)).map DriverPriorityScore.earner_id) ∧
    (prioritize_all_drivers [⟨2, 3/4, 0⟩, ⟨1, 1/2, 0⟩, ⟨3, 1/2, 0⟩]).map
        DriverPriorityScore.overall_priority_score =
      (prioritize_all_drivers [⟨1, 1/2, 0⟩, ⟨2, 3/4, 0⟩, ⟨3, 1/2, 0⟩]).map
        DriverPriorityScore.overall_priority_score :=
  prioritize_all_drivers_ranking
    [⟨1, 1/2, 0⟩, ⟨2, 3/4, 0⟩, ⟨3, 1/2, 0⟩]
    [⟨2, 3/4, 0⟩, ⟨1, 1/2, 0⟩, ⟨3, 1/2, 0⟩]
    (List.Perm.swap _ _ _)

end DriverPrioritization

namespace DigitalTwin

/-- Mean of a pandas numeric series: sum over length
(sum / count; the exact rational value of the float computation). -/
def seriesMean (xs : List ℚ) : ℚ := xs.sum / xs.length

/-- One row of the rides_trips table after _preprocess_data
(digital_twin_agent.py lines 55-69) derived the date, hour and
duration_mins columns: calendar day (encoded as a day index), start hour of
day, net earnings and ride duration in minutes. -/
structure RideRow where
  date : ℕ
  hour : ℕ
  net_earnings : ℚ
  duration_mins : ℚ
deriving DecidableEq

/-- Embeds the earnings_per_hour column computed by _preprocess_data
(line 69): net_earnings * 60 / duration_mins for EVERY row, with no guard
on the duration.  (Exact for every nonzero duration; Python produces an
infinite float at duration 0, which has no rational embedding, so zero
durations are kept out of the statements below.) -/
def earnings_per_hour (t : RideRow) : ℚ := t.net_earnings * 60 / t.duration_mins

/-- Embeds the avg_earnings_per_hour aggregation of learn_driver_patterns
(line 91): the mean of the earnings_per_hour column over ALL of the
driver's rides; no row is excluded. -/
def avg_earnings_per_hour (trips : List RideRow) : ℚ :=
  seriesMean (trips.map earnings_per_hour)

/-- Modelled from the spec (refinement comparison for the aggregation
above): the mean of net_earnings * 60 / duration_minutes taken only over
trips with duration_minutes > 0, the spec's required filtered mean. -/
def avg_earnings_per_hour_spec (trips : List RideRow) : ℚ :=
  seriesMean ((trips.filter (fun t => 0 < t.duration_mins)).map earnings_per_hour)

/-- A two-trip history containing a corrupt (negative-duration) trip:
one hour-long trip earning 30, and a trip of duration -30 minutes
earning 10. -/
def corruptHistory : List RideRow := [⟨0, 9, 30, 60⟩, ⟨0, 10, 10, -30⟩]

/-- C7 counterexample: the code performs no duration filtering.  On a
history with a negative-duration trip the code's mean is
(30 + (-20)) / 2 = 5, while the spec's filtered mean is 30; the corrupt
trip is averaged in rather than excluded. -/
theorem avg_earnings_no_filter_counterexample :
    avg_earnings_per_hour corruptHistory = 5 ∧
    avg_earnings_per_hour_spec corruptHistory = 30 ∧
    avg_earnings_per_hour corruptHistory ≠ avg_earnings_per_hour_spec corruptHistory := by
  refine ⟨?_, ?_, ?_⟩ <;>
    norm_num [avg_earnings_per_hour, avg_earnings_per_hour_spec, seriesMean,
      earnings_per_hour, corruptHistory, List.filter]

/-- C7 amended: avg_earnings_per_hour is the unfiltered mean of
net_earnings * 60 / duration_mins over all trips; it agrees with the spec's
filtered mean exactly when every trip already has positive duration. -/
theorem avg_earnings_eq_spec_of_pos_durations (trips : List RideRow)
    (h : ∀ t ∈ trips, 0 < t.duration_mins) :
    avg_earnings_per_hour trips = avg_earnings_per_hour_spec trips := by
  unfold avg_earnings_per_hour avg_earnings_per_hour_spec
  rw [List.filter_eq_self.mpr (fun t ht => by simpa using h t ht)]

/-- Witness for the amended C7 on a clean single-trip history. -/
theorem avg_earnings_eq_spec_of_pos_durations_witness :
    avg_earnings_per_hour [⟨0, 9, 30, 60⟩] = avg_earnings_per_hour_spec [⟨0, 9, 30, 60⟩] :=
  avg_earnings_eq_spec_of_pos_durations [⟨0, 9, 30, 60⟩]
    (by intro t ht; simp at ht; rw [ht]; norm_num)

/-- Weekday encoding used throughout the twin embedding: day_name values
Monday..Sunday are encoded as 0..6. -/
def monday : ℕ := 0

/-- The DriverProfile dataclass (digital_twin_agent.py lines 27-38). -/
structure TwinProfile where
  driver_id : ℕ
  preferred_hours : List ℤ
  peak_days : List ℕ
  avg_earnings_per_hour : ℚ
  surge_responsiveness : ℚ
  fatigue_threshold : ℤ
  preferred_zones : List ℕ
  incentive_completion_rate : ℚ
  consistency_score : ℚ
deriving DecidableEq

/-- One row of the surge_by_hour table: hour of day and surge
multiplier. -/
structure SurgeRow where
  hour : ℤ
  surge_multiplier : ℚ
deriving DecidableEq

/-- Embeds _get_surge_multiplier (lines 267-272): the mean surge
multiplier of the rows matching the hour, or 1.0 when no row matches. -/
def get_surge_multiplier (surge : List SurgeRow) (hour : ℤ) : ℚ :=
  let rows := surge.filter (fun r => r.hour = hour)
  if 0 < rows.length then seriesMean (rows.map SurgeRow.surge_multiplier) else 1

/-- Embeds the base-earnings term of one (day, hour) slot inside
_project_earnings (lines 246-261): base_earnings starts at the profile's
average earnings per hour, is multiplied by (1 - 0.1 * (daily_hours -
fatigue_threshold)) whenever the day's hour-count exceeds the threshold
(with NO clamp of the multiplier), and is multiplied by 1.1 on a peak
day. -/
def slotBaseEarnings (p : TwinProfile) (day : ℕ) (daily_hours : ℕ) : ℚ :=
  let base := p.avg_earnings_per_hour
  let base1 :=
    if p.fatigue_threshold < (daily_hours : ℤ)
    then base * (1 - 0.1 * ((daily_hours : ℚ) - (p.fatigue_threshold : ℚ)))
    else base
  if day ∈ p.peak_days then base1 * 1.1 else base1

/-- Embeds _project_earnings (lines 240-265): the sum over every
(day, hour) slot of the schedule of the slot's base-earnings term plus
its surge bonus (computed from the unpenalised base). -/
def project_earnings (surge : List SurgeRow) (p : TwinProfile)
    (schedule : List (ℕ × List ℤ)) : ℚ :=
  (schedule.map (fun dh =>
    (dh.2.map (fun hour =>
      slotBaseEarnings p dh.1 dh.2.length +
        p.avg_earnings_per_hour * (get_surge_multiplier surge hour - 1) *
          p.surge_responsiveness)).sum)).sum

/-- A profile with average earnings 10 per hour, no surge responsiveness,
fatigue threshold 8 and no peak days. -/
def flatProfile : TwinProfile := ⟨0, [], [], 10, 0, 8, [], 0, 0⟩

/-- A one-day schedule of 19 consecutive hour slots (19 - 8 = 11 > 10
hours over the fatigue threshold). -/
def longDaySchedule : List (ℕ × List ℤ) :=
  [(monday, [0, 1, 2, 3, 4, 5, 6, 7, 8, 9, 10, 11, 12, 13, 14, 15, 16, 17, 18])]

/-- C8 counterexample: the fatigue multiplier is not clamped at 0.  With
fatigue threshold 8 and a 19-hour day the multiplier is 1 - 0.1 * 11 =
-0.1, each slot's base-earnings term is -1 < 0, and the whole projected
week is -19 < 0. -/
theorem fatigue_penalty_unclamped_counterexample :
    slotBaseEarnings flatProfile monday 19 = -1 ∧
    project_earnings [] flatProfile longDaySchedule = -19 := by
  constructor <;>
    norm_num [slotBaseEarnings, project_earnings, get_surge_multiplier, seriesMean,
      flatProfile, longDaySchedule, monday, List.filter]

/-- C8 amended: the fatigue multiplier is applied without any clamp, so a
slot's base-earnings term is guaranteed non-negative only while the day's
excess over the fatigue threshold is at most 10 hours (and the profile's
average earnings are non-negative); beyond 10 excess hours it can go
negative. -/
theorem slot_base_earnings_nonneg (p : TwinProfile) (day : ℕ) (daily_hours : ℕ)
    (havg : 0 ≤ p.avg_earnings_per_hour)
    (hex : (daily_hours : ℤ) ≤ p.fatigue_threshold + 10) :
    0 ≤ slotBaseEarnings p day daily_hours := by
  have hd : ((daily_hours : ℚ) - (p.fatigue_threshold : ℚ)) ≤ 10 := by
    have h1 : ((daily_hours : ℤ) : ℚ) ≤ ((p.fatigue_threshold + 10 : ℤ) : ℚ) := by
      exact_mod_cast hex
    push_cast at h1
    linarith
  simp only [slotBaseEarnings]
  split_ifs with hp hf hf
  · exact mul_nonneg (mul_nonneg havg (by linarith)) (by norm_num)
  · exact mul_nonneg havg (by norm_num)
  · exact mul_nonneg havg (by linarith)
  · exact havg

/-- Witness for the amended C8: at the flat profile an 18-hour day
(10 hours over the threshold, the largest safe excess) still yields a
non-negative slot base term. -/
theorem slot_base_earnings_nonneg_witness :
    0 ≤ slotBaseEarnings flatProfile monday 18 :=
  slot_base_earnings_nonneg flatProfile monday 18
    (by norm_num [flatProfile]) (by norm_num [flatProfile])

/-- The distinct calendar days of a ride history, in first-appearance
order (the grouping keys of groupby('date'); key order does not matter to
the order-free statistics taken over the groups). -/
def rideDates (rides : List RideRow) : List ℕ :=
  (rides.map RideRow.date).dedup

/-- Embeds groupby('date')['hour'].min() of _calculate_consistency
(line 158): the first-trip hour of each calendar day (each group is
non-empty, so the fallback value of the option-valued minimum is never
used). -/
def dailyFirstHours (rides : List RideRow) : List ℚ :=
  (rideDates rides).map (fun d =>
    ((((rides.filter (fun t => t.date = d)).map RideRow.hour).min?).getD 0 : ℕ))

/-- Embeds groupby('date').size() of _calculate_consistency (line 162):
the trip count of each calendar day. -/
def dailyRideCounts (rides : List RideRow) : List ℚ :=
  (rideDates rides).map (fun d => ((rides.filter (fun t => t.date = d)).length : ℚ))

/-- pandas Series.std(): the ddof = 1 sample standard deviation, which is
NaN (none) for a series of fewer than two entries. -/
noncomputable def sampleStd (xs : List ℚ) : Option ℝ :=
  if xs.length < 2 then none
  else
    some (Real.sqrt ((xs.map (fun x =>
      ((x : ℝ) - (xs.sum : ℝ) / xs.length) ^ 2)).sum / ((xs.length : ℝ) - 1)))

/-- Embeds the ride_count_cv expression of _calculate_consistency
(line 163): std / mean of the daily ride counts when the mean is positive,
1 otherwise; a NaN standard deviation propagates. -/
noncomputable def rideCountCv (rides : List RideRow) : Option ℝ :=
  let counts := dailyRideCounts rides
  if 0 < seriesMean counts then
    (sampleStd counts).map (fun s => s / ((seriesMean counts : ℚ) : ℝ))
  else some 1

/-- Embeds _calculate_consistency (lines 155-167):
min(1 / (1 + std_start_hour + cv_ride_count), 1.0), where a NaN in either
statistic propagates to the result (Python's min keeps the NaN). -/
noncomputable def calculate_consistency (rides : List RideRow) : Option ℝ :=
  (sampleStd (dailyFirstHours rides)).bind (fun s =>
    (rideCountCv rides).map (fun cv => min (1 / (1 + s + cv)) 1))

/-- A non-empty history spanning exactly one calendar day. -/
def oneDayHistory : List RideRow := [⟨0, 9, 30, 60⟩, ⟨0, 10, 12, 30⟩]

/-- Shared helper: the sample standard deviation of a short series is
NaN. -/
lemma sampleStd_eq_none {xs : List ℚ} (h : xs.length < 2) : sampleStd xs = none := by
  unfold sampleStd
  exact if_pos h

/-- Shared helper: the sample standard deviation of a series of at least
two entries is a defined non-negative real. -/
lemma sampleStd_some (xs : List ℚ) (h : 2 ≤ xs.length) :
    ∃ s, sampleStd xs = some s ∧ 0 ≤ s := by
  unfold sampleStd
  rw [if_neg (by omega)]
  exact ⟨_, rfl, Real.sqrt_nonneg _⟩

/-- C9 counterexample: on a non-empty history spanning exactly one
calendar day both statistics are pandas NaN (sample std of a length-1
series), so _calculate_consistency returns NaN rather than a value in
[0,1]. -/
theorem consistency_single_day_nan : calculate_consistency oneDayHistory = none := by
  have h : sampleStd (dailyFirstHours oneDayHistory) = none := by
    apply sampleStd_eq_none
    simp only [dailyFirstHours, List.length_map]
    decide
  simp [calculate_consistency, h]

/-- Shared helper: every daily ride count is at least 1. -/
lemma dailyRideCounts_one_le (rides : List RideRow) :
    ∀ c ∈ dailyRideCounts rides, 1 ≤ c := by
  intro c hc
  simp only [dailyRideCounts, List.mem_map] at hc
  obtain ⟨d, hd, rfl⟩ := hc
  have hmem : d ∈ rides.map RideRow.date := List.mem_dedup.mp hd
  obtain ⟨t, ht, rfl⟩ := List.mem_map.mp hmem
  have : t ∈ rides.filter (fun u => u.date = t.date) :=
    List.mem_filter.mpr ⟨ht, by simp⟩
  have hpos : 0 < (rides.filter (fun u => u.date = t.date)).length :=
    List.length_pos.mpr (fun hnil => by simp [hnil] at this)
  exact_mod_cast hpos

/-- Shared helper: with at least one calendar day the mean daily ride
count is positive. -/
lemma seriesMean_counts_pos (rides : List RideRow)
    (h : 0 < (rideDates rides).length) : 0 < seriesMean (dailyRideCounts rides) := by
  have hlen : (dailyRideCounts rides).length = (rideDates rides).length := by
    simp [dailyRideCounts]
  have hne : dailyRideCounts rides ≠ [] := by
    intro hnil
    rw [hnil] at hlen
    simp at hlen
    omega
  have hsum : 0 < (dailyRideCounts rides).sum :=
    List.sum_pos _ (fun c hc => lt_of_lt_of_le one_pos (dailyRideCounts_one_le rides c hc)) hne
  exact div_pos hsum (by exact_mod_cast List.length_pos.mpr hne)

/-- C9 amended: _calculate_consistency returns
min(1 / (1 + std_start_hour + cv_ride_count), 1), a defined value in
[0,1], whenever the history spans at least TWO calendar days; on a
single-day history both statistics are NaN and the function returns NaN
(see the counterexample). -/
theorem consistency_unit_interval_of_two_days (rides : List RideRow)
    (h2 : 2 ≤ (rideDates rides).length) :
    ∃ v, calculate_consistency rides = some v ∧ 0 ≤ v ∧ v ≤ 1 := by
  have hf : 2 ≤ (dailyFirstHours rides).length := by
    simpa [dailyFirstHours] using h2
  have hc : 2 ≤ (dailyRideCounts rides).length := by
    simpa [dailyRideCounts] using h2
  obtain ⟨s, hs, hs0⟩ := sampleStd_some _ hf
  obtain ⟨s2, hs2, hs20⟩ := sampleStd_some _ hc
  have hm : 0 < seriesMean (dailyRideCounts rides) :=
    seriesMean_counts_pos rides (by omega)
  have hmr : (0 : ℝ) < ((seriesMean (dailyRideCounts rides) : ℚ) : ℝ) := by
    exact_mod_cast hm
  have hcv : rideCountCv rides =
      some (s2 / ((seriesMean (dailyRideCounts rides) : ℚ) : ℝ)) := by
    simp only [rideCountCv]
    rw [if_pos hm, hs2]
    rfl
  have hcv0 : 0 ≤ s2 / ((seriesMean (dailyRideCounts rides) : ℚ) : ℝ) :=
    div_nonneg hs20 hmr.le
  have hden : (0 : ℝ) < 1 + s + s2 / ((seriesMean (dailyRideCounts rides) : ℚ) : ℝ) := by
    linarith
  refine ⟨min (1 / (1 + s + s2 / ((seriesMean (dailyRideCounts rides) : ℚ) : ℝ))) 1,
    ?_, ?_, min_le_right _ _⟩
  · simp only [calculate_consistency, hs, hcv]
    rfl
  · exact le_min (le_of_lt (div_pos one_pos hden)) zero_le_one

/-- Witness for the amended C9 on a two-day history. -/
theorem consistency_unit_interval_of_two_days_witness :
    ∃ v, calculate_consistency [⟨0, 9, 30, 60⟩, ⟨1, 10, 12, 30⟩] = some v ∧
      0 ≤ v ∧ v ≤ 1 :=
  consistency_unit_interval_of_two_days [⟨0, 9, 30, 60⟩, ⟨1, 10, 12, 30⟩] (by decide)

end DigitalTwin
